import Mathlib

/-!
# rtl-entropy: a model of `rtl_entropy.c`

The program is one procedure, `main`, around an external device library
(`rtlsdr_*`).  The embedding below follows `main` line by line:

* the `getopt` loop (lines 104-119) becomes `getoptLoop` over the list of
  options that `getopt` hands back, each with its argument already converted
  by `atoi` / `(uint32_t)atof`;
* the block-size check (lines 121-130) becomes `checkBlockSize`;
* the device library and the signal handler are an oracle, `Env`: what each
  library call returns, and what the flag `do_exit` holds each time the loop
  condition is evaluated;
* the `while (!do_exit)` loop (lines 177-188) becomes `readLoop`, which runs at
  most `fuel` iterations and says how it stopped (`Phase`);
* `main` puts these together and yields a `Run`: the value handed to `exit` or
  returned from `main`, the external calls in order, and the payload of each
  `fwrite` to standard output.

Data model: `int` is 32 bits, `uint32_t` is 32 bits, `size_t` is 64 bits.
Text written to standard error is not part of the model.
-/

namespace RtlEntropy

/-! ## Constants (lines 45-49) -/

def DEFAULT_SAMPLE_RATE : Nat := 2048000
def DEFAULT_BUF_LENGTH : Nat := 16 * 16384
def MINIMAL_BUF_LENGTH : Nat := 512
def MAXIMAL_BUF_LENGTH : Nat := 256 * 16384

/-! ## Machine integers -/

/-- Conversion of an integer value to `uint32_t`. -/
def toU32 (v : Int) : Nat := (v % 4294967296).toNat

/-- Conversion of an `int` to `size_t` (64 bits). -/
def toSizeT (v : Int) : Nat := (v % 18446744073709551616).toNat

/-- Wrap-around of an integer result into the range of `int`. -/
def wrapInt (v : Int) : Int := (v + 2147483648) % 4294967296 - 2147483648

/-! ## Command line (lines 99-130) -/

/-- One result of `getopt(argc, argv, "d:s:b:tpS::")`.  `d` carries the value
of `atoi(optarg)`; `s` and `b` carry the value of `(uint32_t)atof(optarg)`;
`t`, `p` and `S` are the letters the option string accepts without a case in
the switch; `unrecognized` is the `'?'` that `getopt` returns for any other
letter or for a missing argument. -/
inductive Opt where
  | d (v : Int)
  | s (v : Nat)
  | b (v : Nat)
  | t
  | p
  | S
  | unrecognized
  deriving DecidableEq, Repr

/-- The three locals `dev_index`, `samp_rate`, `out_block_size`. -/
structure Config where
  dev_index : Nat
  samp_rate : Nat
  out_block_size : Nat
  deriving DecidableEq, Repr

/-- Initial values of the three locals (lines 99-101). -/
def Config.initial : Config :=
  { dev_index := 0, samp_rate := DEFAULT_SAMPLE_RATE, out_block_size := DEFAULT_BUF_LENGTH }

/-- The `while ((opt = getopt(...)) != -1)` loop.  `none` means that the
`default:` branch ran, that is `usage()` was called, which ends the process
with `exit(1)`. -/
def getoptLoop : List Opt → Config → Option Config
  | [], c => some c
  | Opt.d v :: rest, c => getoptLoop rest { c with dev_index := toU32 v }
  | Opt.s v :: rest, c => getoptLoop rest { c with samp_rate := v % 4294967296 }
  | Opt.b v :: rest, c => getoptLoop rest { c with out_block_size := v % 4294967296 }
  | _ :: _, _ => none

/-- The range check of lines 121-130. -/
def checkBlockSize (out_block_size : Nat) : Nat :=
  if out_block_size < MINIMAL_BUF_LENGTH ∨ out_block_size > MAXIMAL_BUF_LENGTH then
    DEFAULT_BUF_LENGTH
  else
    out_block_size

/-- Lines 99-130: the configuration in force once the options are read and the
block size is checked, or `none` when `usage()` ended the process. -/
def configure (opts : List Opt) : Option Config :=
  match getoptLoop opts Config.initial with
  | none => none
  | some c => some { c with out_block_size := checkBlockSize c.out_block_size }

/-! ## The outside world -/

/-- What `rtlsdr_read_sync(dev, buffer, len, &n_read)` does: its return code,
the value it stores through `&n_read` (`none` when it stores nothing), and the
bytes it puts at the start of `buffer`. -/
structure ReadReply where
  r : Int
  n_read : Option Int
  data : List Nat

/-- The oracle for everything `main` does not compute itself. -/
structure Env where
  /-- Value of `rtlsdr_get_device_count()` as stored in the `int device_count`. -/
  rtlsdr_get_device_count : Int
  /-- Return code of `rtlsdr_open(&dev, index)`. -/
  rtlsdr_open : Nat → Int
  /-- Return code of `rtlsdr_set_sample_rate(dev, rate)`. -/
  rtlsdr_set_sample_rate : Nat → Int
  /-- Return code of `rtlsdr_reset_buffer(dev)`. -/
  rtlsdr_reset_buffer : Int
  /-- Reply to the `i`-th (from 0) call of `rtlsdr_read_sync` with length `len`. -/
  rtlsdr_read_sync : Nat → Nat → ReadReply
  /-- Value of the flag `do_exit` at the `i`-th (from 0) evaluation of the loop
  condition; the signal handler is its only writer. -/
  do_exit : Nat → Bool
  /-- Value held by the uninitialised local `n_read` (line 96). -/
  n_read_init : Int
  /-- Contents of the block returned by `malloc`, by offset. -/
  heap_init : Nat → Nat
  /-- Byte at offset `i` from the address of the local variable `buffer`: the
  bytes of the pointer it holds, then whatever lies behind it. -/
  at_buffer_var : Nat → Nat

/-- External calls made by `main`, with the arguments that matter. -/
inductive Call where
  | malloc (size : Nat)
  | rtlsdr_get_device_count
  | rtlsdr_get_device_name (index : Nat)
  | rtlsdr_open (index : Nat)
  | rtlsdr_set_sample_rate (rate : Nat)
  | rtlsdr_reset_buffer
  | rtlsdr_read_sync (len : Nat)
  | rtlsdr_close
  | free
  deriving DecidableEq, Repr

/-- Is the call a `rtlsdr_read_sync`? -/
def Call.isRead : Call → Bool
  | Call.rtlsdr_read_sync _ => true
  | _ => false

/-- Is the call one of open, set-sample-rate, reset, read, close? -/
def Call.usesDevice : Call → Bool
  | Call.rtlsdr_open _ => true
  | Call.rtlsdr_set_sample_rate _ => true
  | Call.rtlsdr_reset_buffer => true
  | Call.rtlsdr_read_sync _ => true
  | Call.rtlsdr_close => true
  | _ => false

/-! ## The read loop (lines 177-188) -/

/-- Where a run stands. -/
inductive Phase where
  /-- The process ended in `usage()` with `exit(1)` (line 65). -/
  | usage
  /-- No device: `exit(1)` at line 137. -/
  | no_device
  /-- Open failed: `exit(1)` at line 152. -/
  | open_failed
  /-- Still inside the loop when the fuel ran out. -/
  | looping
  /-- The loop condition found `do_exit` set. -/
  | cancelled
  /-- The loop ended with the `break` at line 181. -/
  | read_failed
  /-- The loop ended with the `break` at line 186. -/
  | short_read
  deriving DecidableEq, Repr

/-- The locals the loop works on, and the calls made so far. -/
structure LoopState where
  r : Int
  n_read : Int
  buffer : Nat → Nat
  calls : List Call

/-- The bytes `data` stored at the start of a buffer. -/
def store (buffer : Nat → Nat) (data : List Nat) : Nat → Nat :=
  fun j => if j < data.length then data.getD j 0 else buffer j

/-- Line 178: one call of `rtlsdr_read_sync(dev, buffer, out_block_size, &n_read)`,
the `i`-th of the run. -/
def readStep (env : Env) (out_block_size : Nat) (i : Nat) (st : LoopState) : LoopState :=
  let reply := env.rtlsdr_read_sync i out_block_size
  { r := reply.r
    n_read := reply.n_read.getD st.n_read
    buffer := store st.buffer reply.data
    calls := st.calls ++ [Call.rtlsdr_read_sync out_block_size] }

/-- The loop of lines 177-188, started at its `i`-th condition test, run for at
most `fuel` iterations. -/
def readLoop (env : Env) (out_block_size : Nat) : Nat → Nat → LoopState → Phase × LoopState
  | 0, _, st => (Phase.looping, st)
  | fuel + 1, i, st =>
    if env.do_exit i then (Phase.cancelled, st)
    else
      let st1 := readStep env out_block_size i st
      if st1.r < 0 then (Phase.read_failed, st1)
      else if toU32 st1.n_read < out_block_size then (Phase.short_read, st1)
      else readLoop env out_block_size fuel (i + 1) st1

/-! ## `main` -/

/-- What a run has done. -/
structure Run where
  phase : Phase
  /-- Value given to `exit` or returned from `main`; `none` while looping. -/
  exit : Option Int
  /-- External calls, in order. -/
  calls : List Call
  /-- Payload of each `fwrite(..., stdout)`, in order. -/
  stdout : List (List Nat)
  /-- The local `r`; 0 stands for its unassigned value before `rtlsdr_open`. -/
  r : Int
  /-- The local `n_read`. -/
  n_read : Int
  /-- Contents of the sample buffer, by offset. -/
  buffer : Nat → Nat

/-- Line 195: `fwrite(&buffer, sizeof(uint8_t), n_read, stdout)` takes `n_read`
bytes starting at the address of the variable `buffer`. -/
def fwritePayload (env : Env) (n_read : Int) : List Nat :=
  (List.range (toSizeT n_read)).map env.at_buffer_var

/-- Line 212: `return r >= 0 ? r : -r`. -/
def returnValue (r : Int) : Int :=
  if r ≥ 0 then r else wrapInt (-r)

/-- Lines 140-149: the calls that list the devices and open the chosen one. -/
def listAndOpenCalls (device_count : Int) (dev_index : Nat) : List Call :=
  (List.range device_count.toNat).map Call.rtlsdr_get_device_name
    ++ [Call.rtlsdr_get_device_name dev_index, Call.rtlsdr_open dev_index]

/-- Lines 189-212, after the loop has stopped. -/
def finish (env : Env) (phase : Phase) (st : LoopState) : Run :=
  { phase := phase
    exit := some (returnValue st.r)
    calls := st.calls ++ [Call.rtlsdr_close, Call.free]
    stdout := [fwritePayload env st.n_read]
    r := st.r
    n_read := st.n_read
    buffer := st.buffer }

/-- The calls made before the loop, lines 132-172, when nothing fails. -/
def startupCalls (env : Env) (cfg : Config) : List Call :=
  [Call.malloc cfg.out_block_size, Call.rtlsdr_get_device_count]
    ++ listAndOpenCalls env.rtlsdr_get_device_count cfg.dev_index
    ++ [Call.rtlsdr_set_sample_rate cfg.samp_rate, Call.rtlsdr_reset_buffer]

/-- The locals at the first test of the loop condition (line 177). -/
def entryState (env : Env) (cfg : Config) : LoopState :=
  { r := env.rtlsdr_reset_buffer
    n_read := env.n_read_init
    buffer := env.heap_init
    calls := startupCalls env cfg }

/-- What follows the loop: nothing yet while it is still running, lines 189-212
once it has stopped. -/
def afterLoop (env : Env) : Phase × LoopState → Run
  | (Phase.looping, st) =>
    { phase := Phase.looping, exit := none, calls := st.calls, stdout := []
      r := st.r, n_read := st.n_read, buffer := st.buffer }
  | (ph, st) => finish env ph st

/-- The procedure `main` (lines 91-213), with at most `fuel` loop iterations. -/
def main (opts : List Opt) (env : Env) (fuel : Nat) : Run :=
  match configure opts with
  | none =>
    { phase := Phase.usage, exit := some 1, calls := [], stdout := []
      r := 0, n_read := env.n_read_init, buffer := env.heap_init }
  | some cfg =>
    if env.rtlsdr_get_device_count = 0 then
      { phase := Phase.no_device, exit := some 1
        calls := [Call.malloc cfg.out_block_size, Call.rtlsdr_get_device_count]
        stdout := [], r := 0, n_read := env.n_read_init, buffer := env.heap_init }
    else if env.rtlsdr_open cfg.dev_index < 0 then
      { phase := Phase.open_failed, exit := some 1
        calls := [Call.malloc cfg.out_block_size, Call.rtlsdr_get_device_count]
          ++ listAndOpenCalls env.rtlsdr_get_device_count cfg.dev_index
        stdout := [], r := env.rtlsdr_open cfg.dev_index, n_read := env.n_read_init
        buffer := env.heap_init }
    else
      afterLoop env (readLoop env cfg.out_block_size fuel 0 (entryState env cfg))

/-- Number of `rtlsdr_read_sync` calls in a trace. -/
def readCount (calls : List Call) : Nat := calls.countP Call.isRead

/-- Is the option one of `-d`, `-s`, `-b`, the three with a case in the switch? -/
def Opt.handled : Opt → Bool
  | Opt.d _ => true
  | Opt.s _ => true
  | Opt.b _ => true
  | _ => false

/-- Is the option a `-b`? -/
def Opt.isB : Opt → Bool
  | Opt.b _ => true
  | _ => false

/-- Is the option a `-s`? -/
def Opt.isS : Opt → Bool
  | Opt.s _ => true
  | _ => false

/-- What the loop has done when it hands back `(ph, st1)`: it made `k` reads, all
of length `B`; `k` and the phase determine the locals. -/
structure LoopFacts (env : Env) (B fuel i : Nat) (st : LoopState)
    (out : Phase × LoopState) (k : Nat) : Prop where
  le_fuel : k ≤ fuel
  calls : out.2.calls = st.calls ++ List.replicate k (Call.rtlsdr_read_sync B)
  none_read : k = 0 → out.2 = st
  last_r : 0 < k → out.2.r = (env.rtlsdr_read_sync (i + k - 1) B).r
  looping : out.1 = Phase.looping → k = fuel
  cancelled : out.1 = Phase.cancelled → env.do_exit (i + k) = true ∧ (0 < k → 0 ≤ out.2.r)
  read_failed : out.1 = Phase.read_failed → 0 < k ∧ out.2.r < 0
  short_read : out.1 = Phase.short_read →
    0 < k ∧ 0 ≤ out.2.r ∧ toU32 out.2.n_read < B
  in_loop : out.1 = Phase.looping ∨ out.1 = Phase.cancelled ∨ out.1 = Phase.read_failed ∨
    out.1 = Phase.short_read

/-! ## Sample environments -/

/-- One device; every read returns 0 with a full block; never cancelled. -/
def envSteady : Env :=
  { rtlsdr_get_device_count := 1
    rtlsdr_open := fun _ => 0
    rtlsdr_set_sample_rate := fun _ => 0
    rtlsdr_reset_buffer := 0
    rtlsdr_read_sync := fun _ len => { r := 0, n_read := some len, data := [] }
    do_exit := fun _ => false
    n_read_init := 0
    heap_init := fun _ => 0
    at_buffer_var := fun i => [160, 66, 96, 85, 85, 85, 0, 0].getD i 0 }

/-- As `envSteady`, but the third read (index 2) returns 0 with only the four
bytes 1, 2, 3, 4. -/
def envShort : Env :=
  { envSteady with
    rtlsdr_read_sync := fun i len =>
      if i = 2 then { r := 0, n_read := some 4, data := [1, 2, 3, 4] }
      else { r := 0, n_read := some len, data := [] } }

/-- As `envSteady`, but the second read (index 1) fails with code -5 and stores
nothing. -/
def envFail : Env :=
  { envSteady with
    rtlsdr_read_sync := fun i len =>
      if i = 1 then { r := -5, n_read := none, data := [] }
      else { r := 0, n_read := some len, data := [] } }

/-- As `envSteady`, but every read returns 512 bytes and the flag is set from
the third loop test (index 2) on. -/
def envCancel : Env :=
  { envSteady with
    rtlsdr_read_sync := fun _ _ => { r := 0, n_read := some 512, data := [7, 7] }
    do_exit := fun i => decide (2 ≤ i) }

/-- No device at all. -/
def envNoDevice : Env := { envSteady with rtlsdr_get_device_count := 0 }

/-- One device that cannot be opened. -/
def envOpenFails : Env := { envSteady with rtlsdr_open := fun _ => -3 }

/-- Sample rate and reset both fail; the first read is short. -/
def envWarnings : Env :=
  { envSteady with
    rtlsdr_set_sample_rate := fun _ => -1
    rtlsdr_reset_buffer := -1
    rtlsdr_read_sync := fun _ _ => { r := 0, n_read := some 3, data := [9, 8, 7] } }

/-! ## The option loop -/

theorem getoptLoop_append (xs ys : List Opt) (c : Config) :
    getoptLoop (xs ++ ys) c = (getoptLoop xs c).bind (getoptLoop ys) := by
  induction xs generalizing c with
  | nil => simp [getoptLoop]
  | cons o rest ih => cases o <;> simp [getoptLoop, ih]

theorem getoptLoop_handled (xs : List Opt) (c : Config)
    (h : ∀ o ∈ xs, o.handled = true) : ∃ c1, getoptLoop xs c = some c1 := by
  induction xs generalizing c with
  | nil => exact ⟨c, rfl⟩
  | cons o rest ih =>
    have hr : ∀ o ∈ rest, o.handled = true := fun o ho => h o (List.mem_cons_of_mem _ ho)
    have ho := h o (List.mem_cons_self _ _)
    cases o <;> simp [Opt.handled] at ho <;> simp [getoptLoop] <;> exact ih _ hr

theorem getoptLoop_not_handled (xs : List Opt) (c : Config)
    (h : ∃ o ∈ xs, o.handled = false) : getoptLoop xs c = none := by
  induction xs generalizing c with
  | nil => simp at h
  | cons o rest ih =>
    obtain ⟨o1, ho1, hh⟩ := h
    rcases List.mem_cons.mp ho1 with rfl | hmem
    · cases o1 <;> simp [Opt.handled] at hh <;> simp [getoptLoop]
    · cases o <;> simp [getoptLoop] <;> exact ih _ ⟨o1, hmem, hh⟩

theorem getoptLoop_keeps_block (xs : List Opt) (c c1 : Config)
    (h : ∀ o ∈ xs, o.isB = false) (hc : getoptLoop xs c = some c1) :
    c1.out_block_size = c.out_block_size := by
  induction xs generalizing c with
  | nil => simp [getoptLoop] at hc; rw [← hc]
  | cons o rest ih =>
    have hr : ∀ o ∈ rest, o.isB = false := fun o ho => h o (List.mem_cons_of_mem _ ho)
    have ho := h o (List.mem_cons_self _ _)
    cases o <;> simp [Opt.isB] at ho <;> simp [getoptLoop] at hc
    all_goals exact (ih _ hr hc).trans rfl

theorem getoptLoop_keeps_rate (xs : List Opt) (c c1 : Config)
    (h : ∀ o ∈ xs, o.isS = false) (hc : getoptLoop xs c = some c1) :
    c1.samp_rate = c.samp_rate := by
  induction xs generalizing c with
  | nil => simp [getoptLoop] at hc; rw [← hc]
  | cons o rest ih =>
    have hr : ∀ o ∈ rest, o.isS = false := fun o ho => h o (List.mem_cons_of_mem _ ho)
    have ho := h o (List.mem_cons_self _ _)
    cases o <;> simp [Opt.isS] at ho <;> simp [getoptLoop] at hc
    all_goals exact (ih _ hr hc).trans rfl

/-- The block size the option loop leaves behind when the last `-b` carries `b`. -/
theorem getoptLoop_last_b (pre post : List Opt) (b : Nat) (c c1 : Config)
    (hpost : ∀ o ∈ post, o.isB = false)
    (hc : getoptLoop (pre ++ Opt.b b :: post) c = some c1) :
    c1.out_block_size = b % 4294967296 := by
  rw [getoptLoop_append] at hc
  cases hp : getoptLoop pre c with
  | none => simp [hp] at hc
  | some c0 =>
    simp [hp, getoptLoop] at hc
    exact getoptLoop_keeps_block post _ c1 hpost hc

/-- The sample rate the option loop leaves behind when the last `-s` carries `s`. -/
theorem getoptLoop_last_s (pre post : List Opt) (s : Nat) (c c1 : Config)
    (hpost : ∀ o ∈ post, o.isS = false)
    (hc : getoptLoop (pre ++ Opt.s s :: post) c = some c1) :
    c1.samp_rate = s % 4294967296 := by
  rw [getoptLoop_append] at hc
  cases hp : getoptLoop pre c with
  | none => simp [hp] at hc
  | some c0 =>
    simp [hp, getoptLoop] at hc
    exact getoptLoop_keeps_rate post _ c1 hpost hc

theorem configure_eq_some (opts : List Opt) (cfg : Config) (h : configure opts = some cfg) :
    ∃ c, getoptLoop opts Config.initial = some c ∧
      cfg = { c with out_block_size := checkBlockSize c.out_block_size } := by
  unfold configure at h
  cases hg : getoptLoop opts Config.initial with
  | none => simp [hg] at h
  | some c => simp [hg] at h; exact ⟨c, rfl, h.symm⟩

theorem configure_handled (opts : List Opt) (h : ∀ o ∈ opts, o.handled = true) :
    ∃ cfg, configure opts = some cfg := by
  obtain ⟨c, hc⟩ := getoptLoop_handled opts Config.initial h
  exact ⟨{ c with out_block_size := checkBlockSize c.out_block_size }, by simp [configure, hc]⟩

theorem configure_not_handled (opts : List Opt) (h : ∃ o ∈ opts, o.handled = false) :
    configure opts = none := by
  simp [configure, getoptLoop_not_handled opts Config.initial h]

/-! ## The read loop -/

theorem readLoop_succ (env : Env) (B fuel i : Nat) (st : LoopState) :
    readLoop env B (fuel + 1) i st =
      if env.do_exit i then (Phase.cancelled, st)
      else if (readStep env B i st).r < 0 then (Phase.read_failed, readStep env B i st)
      else if toU32 (readStep env B i st).n_read < B then
        (Phase.short_read, readStep env B i st)
      else readLoop env B fuel (i + 1) (readStep env B i st) := rfl

theorem readLoop_facts (env : Env) (B : Nat) :
    ∀ (fuel i : Nat) (st : LoopState), ∃ k, LoopFacts env B fuel i st (readLoop env B fuel i st) k := by
  intro fuel
  induction fuel with
  | zero =>
    intro i st
    refine ⟨0, ?_⟩
    constructor <;> simp [readLoop]
  | succ fuel ih =>
    intro i st
    rw [readLoop_succ]
    by_cases hx : env.do_exit i = true
    · refine ⟨0, ?_⟩
      rw [if_pos hx]
      constructor <;> simp [hx]
    · rw [if_neg hx]
      by_cases hr : (readStep env B i st).r < 0
      · refine ⟨1, ?_⟩
        rw [if_pos hr]
        constructor <;> simp [readStep]
        simpa [readStep] using hr
      · rw [if_neg hr]
        by_cases hs : toU32 (readStep env B i st).n_read < B
        · refine ⟨1, ?_⟩
          rw [if_pos hs]
          constructor <;> simp [readStep]
          exact ⟨by simpa [readStep] using hr, by simpa [readStep] using hs⟩
        · rw [if_neg hs]
          obtain ⟨k, hk⟩ := ih (i + 1) (readStep env B i st)
          refine ⟨k + 1, ?_⟩
          have hidx : i + (k + 1) = i + 1 + k := by omega
          constructor
          · exact Nat.succ_le_succ hk.le_fuel
          · rw [hk.calls]
            simp [readStep, List.replicate_succ]
          · intro h; omega
          · intro _
            rcases Nat.eq_zero_or_pos k with h0 | hpos
            · rw [hk.none_read h0, h0]
              simp [readStep]
            · rw [hk.last_r hpos]
              have hi : i + 1 + k - 1 = i + (k + 1) - 1 := by omega
              rw [hi]
          · intro h; rw [hk.looping h]
          · intro h
            refine ⟨by rw [hidx]; exact (hk.cancelled h).1, fun _ => ?_⟩
            rcases Nat.eq_zero_or_pos k with h0 | hpos
            · rw [hk.none_read h0]; exact not_lt.mp hr
            · exact (hk.cancelled h).2 hpos
          · intro h; exact ⟨Nat.succ_pos _, (hk.read_failed h).2⟩
          · intro h; exact ⟨Nat.succ_pos _, (hk.short_read h).2⟩
          · exact hk.in_loop

/-- A loop still running after `a` iterations goes on from there. -/
theorem readLoop_continue (env : Env) (B : Nat) :
    ∀ (a m i : Nat) (st st1 : LoopState),
      readLoop env B a i st = (Phase.looping, st1) →
      readLoop env B (a + m) i st = readLoop env B m (i + a) st1 := by
  intro a
  induction a with
  | zero =>
    intro m i st st1 h
    simp [readLoop] at h
    simp [h]
  | succ a ih =>
    intro m i st st1 h
    have e : a + 1 + m = (a + m) + 1 := by omega
    rw [e, readLoop_succ]
    rw [readLoop_succ] at h
    by_cases hx : env.do_exit i = true
    · rw [if_pos hx] at h; simp at h
    · rw [if_neg hx] at h ⊢
      by_cases hr : (readStep env B i st).r < 0
      · rw [if_pos hr] at h; simp at h
      · rw [if_neg hr] at h ⊢
        by_cases hs : toU32 (readStep env B i st).n_read < B
        · rw [if_pos hs] at h; simp at h
        · rw [if_neg hs] at h ⊢
          rw [ih m (i + 1) _ st1 h]
          have e2 : i + 1 + a = i + (a + 1) := by omega
          rw [e2]

/-- A loop that has stopped stays as it is, whatever fuel is added. -/
theorem readLoop_stable (env : Env) (B : Nat) :
    ∀ (a m i : Nat) (st : LoopState),
      (readLoop env B a i st).1 ≠ Phase.looping →
      readLoop env B (a + m) i st = readLoop env B a i st := by
  intro a
  induction a with
  | zero =>
    intro m i st h
    simp [readLoop] at h
  | succ a ih =>
    intro m i st h
    have e : a + 1 + m = (a + m) + 1 := by omega
    rw [e, readLoop_succ, readLoop_succ]
    rw [readLoop_succ] at h
    by_cases hx : env.do_exit i = true
    · rw [if_pos hx, if_pos hx]
    · rw [if_neg hx] at h ⊢
      rw [if_neg hx]
      by_cases hr : (readStep env B i st).r < 0
      · rw [if_pos hr, if_pos hr]
      · rw [if_neg hr] at h ⊢
        rw [if_neg hr]
        by_cases hs : toU32 (readStep env B i st).n_read < B
        · rw [if_pos hs, if_pos hs]
        · rw [if_neg hs] at h ⊢
          rw [if_neg hs]
          exact ih m (i + 1) _ h

/-! ## `main` as a whole -/

theorem main_usage (opts : List Opt) (env : Env) (fuel : Nat) (h : configure opts = none) :
    main opts env fuel =
      { phase := Phase.usage, exit := some 1, calls := [], stdout := []
        r := 0, n_read := env.n_read_init, buffer := env.heap_init } := by
  simp [main, h]

theorem main_no_device (opts : List Opt) (env : Env) (fuel : Nat) (cfg : Config)
    (h : configure opts = some cfg) (h0 : env.rtlsdr_get_device_count = 0) :
    main opts env fuel =
      { phase := Phase.no_device, exit := some 1
        calls := [Call.malloc cfg.out_block_size, Call.rtlsdr_get_device_count]
        stdout := [], r := 0, n_read := env.n_read_init, buffer := env.heap_init } := by
  simp [main, h, h0]

theorem main_open_failed (opts : List Opt) (env : Env) (fuel : Nat) (cfg : Config)
    (h : configure opts = some cfg) (h0 : env.rtlsdr_get_device_count ≠ 0)
    (ho : env.rtlsdr_open cfg.dev_index < 0) :
    main opts env fuel =
      { phase := Phase.open_failed, exit := some 1
        calls := [Call.malloc cfg.out_block_size, Call.rtlsdr_get_device_count]
          ++ listAndOpenCalls env.rtlsdr_get_device_count cfg.dev_index
        stdout := [], r := env.rtlsdr_open cfg.dev_index, n_read := env.n_read_init
        buffer := env.heap_init } := by
  simp [main, h, h0, ho]

theorem main_loop (opts : List Opt) (env : Env) (fuel : Nat) (cfg : Config)
    (h : configure opts = some cfg) (h0 : env.rtlsdr_get_device_count ≠ 0)
    (ho : 0 ≤ env.rtlsdr_open cfg.dev_index) :
    main opts env fuel =
      afterLoop env (readLoop env cfg.out_block_size fuel 0 (entryState env cfg)) := by
  have ho1 : ¬ env.rtlsdr_open cfg.dev_index < 0 := not_lt.mpr ho
  simp [main, h, h0, ho1]

theorem afterLoop_phase (env : Env) (out : Phase × LoopState) :
    (afterLoop env out).phase = out.1 := by
  obtain ⟨ph, st⟩ := out
  cases ph <;> rfl

/-- A run is in one of the loop phases exactly when startup went through. -/
theorem main_in_loop (opts : List Opt) (env : Env) (fuel : Nat)
    (h : (main opts env fuel).phase = Phase.looping ∨ (main opts env fuel).phase = Phase.cancelled ∨
      (main opts env fuel).phase = Phase.read_failed ∨
      (main opts env fuel).phase = Phase.short_read) :
    ∃ cfg, configure opts = some cfg ∧ env.rtlsdr_get_device_count ≠ 0 ∧
      0 ≤ env.rtlsdr_open cfg.dev_index := by
  cases hc : configure opts with
  | none => rw [main_usage opts env fuel hc] at h; simp at h
  | some cfg =>
    refine ⟨cfg, rfl, ?_⟩
    by_cases h0 : env.rtlsdr_get_device_count = 0
    · rw [main_no_device opts env fuel cfg hc h0] at h; simp at h
    · by_cases ho : env.rtlsdr_open cfg.dev_index < 0
      · rw [main_open_failed opts env fuel cfg hc h0 ho] at h; simp at h
      · exact ⟨h0, not_lt.mp ho⟩

theorem afterLoop_calls (env : Env) (out : Phase × LoopState) :
    (afterLoop env out).calls =
      out.2.calls ++ (if out.1 = Phase.looping then [] else [Call.rtlsdr_close, Call.free]) := by
  obtain ⟨ph, st⟩ := out
  cases ph <;> simp [afterLoop, finish]

theorem afterLoop_stdout (env : Env) (out : Phase × LoopState) :
    (afterLoop env out).stdout =
      if out.1 = Phase.looping then [] else [fwritePayload env out.2.n_read] := by
  obtain ⟨ph, st⟩ := out
  cases ph <;> simp [afterLoop, finish]

theorem afterLoop_exit (env : Env) (out : Phase × LoopState) :
    (afterLoop env out).exit =
      if out.1 = Phase.looping then none else some (returnValue out.2.r) := by
  obtain ⟨ph, st⟩ := out
  cases ph <;> simp [afterLoop, finish]

theorem afterLoop_r (env : Env) (out : Phase × LoopState) :
    (afterLoop env out).r = out.2.r := by
  obtain ⟨ph, st⟩ := out
  cases ph <;> rfl

theorem afterLoop_n_read (env : Env) (out : Phase × LoopState) :
    (afterLoop env out).n_read = out.2.n_read := by
  obtain ⟨ph, st⟩ := out
  cases ph <;> rfl

/-- The calls of a run that got past startup: the startup calls, then `k` reads
of the configured length, then close and free once the loop has stopped. -/
theorem main_loop_calls (opts : List Opt) (env : Env) (fuel : Nat) (cfg : Config)
    (h : configure opts = some cfg) (h0 : env.rtlsdr_get_device_count ≠ 0)
    (ho : 0 ≤ env.rtlsdr_open cfg.dev_index) :
    ∃ k, LoopFacts env cfg.out_block_size fuel 0 (entryState env cfg)
        (readLoop env cfg.out_block_size fuel 0 (entryState env cfg)) k ∧
      (main opts env fuel).calls =
        startupCalls env cfg ++ List.replicate k (Call.rtlsdr_read_sync cfg.out_block_size)
          ++ (if (main opts env fuel).phase = Phase.looping then []
              else [Call.rtlsdr_close, Call.free]) := by
  obtain ⟨k, hk⟩ := readLoop_facts env cfg.out_block_size fuel 0 (entryState env cfg)
  refine ⟨k, hk, ?_⟩
  rw [main_loop opts env fuel cfg h h0 ho, afterLoop_calls, afterLoop_phase, hk.calls]
  rfl

theorem readCount_startupCalls (env : Env) (cfg : Config) :
    readCount (startupCalls env cfg) = 0 := by
  unfold readCount
  rw [List.countP_eq_zero]
  intro c hc
  simp [startupCalls, listAndOpenCalls] at hc
  rcases hc with h | h | h | h | h | h | h
  · subst h; simp [Call.isRead]
  · subst h; simp [Call.isRead]
  · obtain ⟨a, _, rfl⟩ := h; simp [Call.isRead]
  · subst h; simp [Call.isRead]
  · subst h; simp [Call.isRead]
  · subst h; simp [Call.isRead]
  · subst h; simp [Call.isRead]

theorem readCount_replicate (k B : Nat) :
    readCount (List.replicate k (Call.rtlsdr_read_sync B)) = k := by
  unfold readCount
  induction k with
  | zero => simp
  | succ k ih => simp [List.replicate_succ, List.countP_cons, Call.isRead, ih]

theorem readCount_append (xs ys : List Call) :
    readCount (xs ++ ys) = readCount xs + readCount ys := by
  simp [readCount, List.countP_append]

/-- The lengths passed to `malloc` and to every read, and the rate passed to
`rtlsdr_set_sample_rate`, are those of the configuration. -/
theorem main_calls_sizes (opts : List Opt) (env : Env) (fuel : Nat) (cfg : Config)
    (h : configure opts = some cfg) (n : Nat) :
    (Call.malloc n ∈ (main opts env fuel).calls → n = cfg.out_block_size) ∧
    (Call.rtlsdr_read_sync n ∈ (main opts env fuel).calls → n = cfg.out_block_size) ∧
    (Call.rtlsdr_set_sample_rate n ∈ (main opts env fuel).calls → n = cfg.samp_rate) := by
  by_cases h0 : env.rtlsdr_get_device_count = 0
  · rw [main_no_device opts env fuel cfg h h0]
    simp
  · by_cases ho : env.rtlsdr_open cfg.dev_index < 0
    · rw [main_open_failed opts env fuel cfg h h0 ho]
      simp [listAndOpenCalls]
    · obtain ⟨k, _, hk⟩ := main_loop_calls opts env fuel cfg h h0 (not_lt.mp ho)
      rw [hk]
      have hsplit : ∀ c : Call, c ∈ (if (main opts env fuel).phase = Phase.looping then []
          else [Call.rtlsdr_close, Call.free]) → c = Call.rtlsdr_close ∨ c = Call.free := by
        intro c hc
        split at hc
        · simp at hc
        · simpa using hc
      refine ⟨?_, ?_, ?_⟩
      · intro hm
        rcases List.mem_append.mp hm with hm | hm
        · simpa [startupCalls, listAndOpenCalls] using hm
        · rcases hsplit _ hm with h1 | h1 <;> cases h1
      · intro hm
        rcases List.mem_append.mp hm with hm | hm
        · have := hm
          simp [startupCalls, listAndOpenCalls] at this
          exact this.2
        · rcases hsplit _ hm with h1 | h1 <;> cases h1
      · intro hm
        rcases List.mem_append.mp hm with hm | hm
        · simpa [startupCalls, listAndOpenCalls] using hm
        · rcases hsplit _ hm with h1 | h1 <;> cases h1

theorem checkBlockSize_range (b : Nat) :
    512 ≤ checkBlockSize b ∧ checkBlockSize b ≤ 4194304 := by
  unfold checkBlockSize
  simp only [MINIMAL_BUF_LENGTH, MAXIMAL_BUF_LENGTH, DEFAULT_BUF_LENGTH]
  split <;> omega

theorem checkBlockSize_out (b : Nat) (h : b < 512 ∨ b > 4194304) :
    checkBlockSize b = 262144 := by
  unfold checkBlockSize
  simp only [MINIMAL_BUF_LENGTH, MAXIMAL_BUF_LENGTH, DEFAULT_BUF_LENGTH]
  rw [if_pos (by omega)]

theorem checkBlockSize_in (b : Nat) (hlo : 512 ≤ b) (hhi : b ≤ 4194304) :
    checkBlockSize b = b := by
  unfold checkBlockSize
  simp only [MINIMAL_BUF_LENGTH, MAXIMAL_BUF_LENGTH, DEFAULT_BUF_LENGTH]
  rw [if_neg (by omega)]

theorem configure_range (opts : List Opt) (cfg : Config) (h : configure opts = some cfg) :
    512 ≤ cfg.out_block_size ∧ cfg.out_block_size ≤ 4194304 := by
  obtain ⟨c, _, rfl⟩ := configure_eq_some opts cfg h
  exact checkBlockSize_range c.out_block_size

theorem returnValue_abs (r : Int) (h : -2147483648 < r) : returnValue r = |r| := by
  unfold returnValue
  split
  · rename_i h0
    exact (abs_of_nonneg h0).symm
  · rename_i h0
    have hneg : r < 0 := not_le.mp h0
    rw [abs_of_neg hneg]
    unfold wrapInt
    omega

/-- The facts about a run that got past startup, in terms of the run itself. -/
theorem main_loop_facts (opts : List Opt) (env : Env) (fuel : Nat) (cfg : Config)
    (h : configure opts = some cfg) (h0 : env.rtlsdr_get_device_count ≠ 0)
    (ho : 0 ≤ env.rtlsdr_open cfg.dev_index) :
    ∃ k, LoopFacts env cfg.out_block_size fuel 0 (entryState env cfg)
        (readLoop env cfg.out_block_size fuel 0 (entryState env cfg)) k ∧
      readCount (main opts env fuel).calls = k ∧
      (main opts env fuel).phase =
        (readLoop env cfg.out_block_size fuel 0 (entryState env cfg)).1 ∧
      (main opts env fuel).r =
        (readLoop env cfg.out_block_size fuel 0 (entryState env cfg)).2.r ∧
      (main opts env fuel).n_read =
        (readLoop env cfg.out_block_size fuel 0 (entryState env cfg)).2.n_read := by
  obtain ⟨k, hk, hcalls⟩ := main_loop_calls opts env fuel cfg h h0 ho
  refine ⟨k, hk, ?_, ?_, ?_, ?_⟩
  · rw [hcalls, readCount_append, readCount_append, readCount_startupCalls,
      readCount_replicate]
    split <;> simp [readCount, Call.isRead]
  · rw [main_loop opts env fuel cfg h h0 ho, afterLoop_phase]
  · rw [main_loop opts env fuel cfg h h0 ho, afterLoop_r]
  · rw [main_loop opts env fuel cfg h h0 ho, afterLoop_n_read]

/-- Once a run has left the loop, or never entered it, more fuel changes
nothing. -/
theorem main_stable (opts : List Opt) (env : Env) (fuel m : Nat)
    (h : (main opts env fuel).phase ≠ Phase.looping) :
    main opts env (fuel + m) = main opts env fuel := by
  cases hc : configure opts with
  | none => rw [main_usage opts env _ hc, main_usage opts env _ hc]
  | some cfg =>
    by_cases h0 : env.rtlsdr_get_device_count = 0
    · rw [main_no_device opts env _ cfg hc h0, main_no_device opts env _ cfg hc h0]
    · by_cases ho : env.rtlsdr_open cfg.dev_index < 0
      · rw [main_open_failed opts env _ cfg hc h0 ho, main_open_failed opts env _ cfg hc h0 ho]
      · have ho1 := not_lt.mp ho
        rw [main_loop opts env _ cfg hc h0 ho1, afterLoop_phase] at h
        rw [main_loop opts env _ cfg hc h0 ho1, main_loop opts env _ cfg hc h0 ho1,
          readLoop_stable env cfg.out_block_size fuel m 0 _ h]

/-- A run still looping after `k` iterations: what its state is, and how any
longer run goes on from it. -/
theorem main_at_reach (opts : List Opt) (env : Env) (k : Nat)
    (hreach : (main opts env k).phase = Phase.looping) :
    ∃ cfg stk, configure opts = some cfg ∧ env.rtlsdr_get_device_count ≠ 0 ∧
      0 ≤ env.rtlsdr_open cfg.dev_index ∧
      readLoop env cfg.out_block_size k 0 (entryState env cfg) = (Phase.looping, stk) ∧
      (main opts env k).calls = stk.calls ∧
      readCount stk.calls = k ∧
      (∀ m, main opts env (k + m) = afterLoop env (readLoop env cfg.out_block_size m k stk)) := by
  obtain ⟨cfg, hcfg, h0, ho⟩ := main_in_loop opts env k (Or.inl hreach)
  obtain ⟨j, hj, hcount, hphase, _, _⟩ := main_loop_facts opts env k cfg hcfg h0 ho
  rw [hreach] at hphase
  have hout : readLoop env cfg.out_block_size k 0 (entryState env cfg) =
      (Phase.looping, (readLoop env cfg.out_block_size k 0 (entryState env cfg)).2) := by
    rw [hphase]
  have hcalls : (main opts env k).calls =
      (readLoop env cfg.out_block_size k 0 (entryState env cfg)).2.calls := by
    rw [main_loop opts env k cfg hcfg h0 ho, afterLoop_calls, ← hphase]
    simp
  refine ⟨cfg, _, hcfg, h0, ho, hout, hcalls, ?_, ?_⟩
  · rw [← hcalls, hcount]
    exact hj.looping hphase.symm
  · intro m
    rw [main_loop opts env (k + m) cfg hcfg h0 ho,
      readLoop_continue env cfg.out_block_size k m 0 _ _ hout]
    simp

theorem toSizeT_of_nonneg (n : Int) (h0 : 0 ≤ n) (h1 : n < 18446744073709551616) :
    toSizeT n = n.toNat := by
  unfold toSizeT
  rw [Int.emod_eq_of_lt h0 h1]

theorem toU32_of_nonneg (n : Int) (h0 : 0 ≤ n) (h1 : n < 4294967296) :
    toU32 n = n.toNat := by
  unfold toU32
  rw [Int.emod_eq_of_lt h0 h1]

theorem fwritePayload_length (env : Env) (n : Int) :
    (fwritePayload env n).length = toSizeT n := by
  simp [fwritePayload]

theorem count_close_startupCalls (env : Env) (cfg : Config) :
    List.count Call.rtlsdr_close (startupCalls env cfg) = 0 := by
  rw [List.count_eq_zero]
  intro hc
  simp [startupCalls, listAndOpenCalls] at hc

theorem count_close_replicate (k B : Nat) :
    List.count Call.rtlsdr_close (List.replicate k (Call.rtlsdr_read_sync B)) = 0 := by
  rw [List.count_eq_zero]
  intro hc
  have := List.eq_of_mem_replicate hc
  cases this

/-! ## The claims -/

/-- C1: when the last `-b` on the command line carries a 32-bit value `b` with
`b < 512` or `b > 4194304`, the configuration in force has block size 262144
whenever there is one (and there is one when every option is `-d`, `-s` or `-b`),
which is not `b`, and in every run `malloc` and every `rtlsdr_read_sync` are
called with 262144. -/
theorem C1_block_size_out_of_range (pre post : List Opt) (b : Nat)
    (hb : b < 4294967296) (hout : b < 512 ∨ b > 4194304)
    (hpost : ∀ o ∈ post, o.isB = false) :
    b ≠ 262144 ∧
    (∀ cfg, configure (pre ++ Opt.b b :: post) = some cfg → cfg.out_block_size = 262144) ∧
    ((∀ o ∈ pre ++ post, o.handled = true) →
      ∃ cfg, configure (pre ++ Opt.b b :: post) = some cfg ∧ cfg.out_block_size = 262144) ∧
    (∀ (env : Env) (fuel n : Nat),
      (Call.malloc n ∈ (main (pre ++ Opt.b b :: post) env fuel).calls → n = 262144) ∧
      (Call.rtlsdr_read_sync n ∈ (main (pre ++ Opt.b b :: post) env fuel).calls →
        n = 262144)) := by
  have key : ∀ cfg, configure (pre ++ Opt.b b :: post) = some cfg →
      cfg.out_block_size = 262144 := by
    intro cfg hcfg
    obtain ⟨c, hc, rfl⟩ := configure_eq_some _ cfg hcfg
    have hraw := getoptLoop_last_b pre post b Config.initial c hpost hc
    rw [Nat.mod_eq_of_lt hb] at hraw
    simp only [hraw]
    exact checkBlockSize_out b hout
  refine ⟨by omega, key, ?_, ?_⟩
  · intro hok
    have hall : ∀ o ∈ pre ++ Opt.b b :: post, o.handled = true := by
      intro o ho
      rcases List.mem_append.mp ho with h1 | h1
      · exact hok o (List.mem_append.mpr (Or.inl h1))
      · rcases List.mem_cons.mp h1 with h2 | h2
        · rw [h2]; rfl
        · exact hok o (List.mem_append.mpr (Or.inr h2))
    obtain ⟨cfg, hcfg⟩ := configure_handled _ hall
    exact ⟨cfg, hcfg, key cfg hcfg⟩
  · intro env fuel n
    cases hcfg : configure (pre ++ Opt.b b :: post) with
    | none =>
      rw [main_usage _ env fuel hcfg]
      simp
    | some cfg =>
      have hs := main_calls_sizes _ env fuel cfg hcfg n
      rw [key cfg hcfg] at hs
      exact ⟨hs.1, hs.2.1⟩

/-- Witness for C1 at `-b 100`: block size 262144, used by `malloc` and by the
reads of a run on `envShort`. -/
theorem C1_block_size_out_of_range_witness :
    (100 < 512 ∨ 100 > 4194304) ∧
    (∃ cfg, configure ([] ++ Opt.b 100 :: []) = some cfg ∧ cfg.out_block_size = 262144) ∧
    (∀ (env : Env) (fuel n : Nat),
      (Call.malloc n ∈ (main ([] ++ Opt.b 100 :: []) env fuel).calls → n = 262144) ∧
      (Call.rtlsdr_read_sync n ∈ (main ([] ++ Opt.b 100 :: []) env fuel).calls →
        n = 262144)) :=
  ⟨by decide,
   (C1_block_size_out_of_range [] [] 100 (by decide) (by decide) (by simp)).2.2.1 (by simp),
   (C1_block_size_out_of_range [] [] 100 (by decide) (by decide) (by simp)).2.2.2⟩

/-- C2: when the last `-b` carries `b` with `512 ≤ b ≤ 4194304` and every option
is `-d`, `-s` or `-b`, the configuration in force has block size `b`, the sample
rate and device index are the ones the option loop left (so the value of the
last `-s`, when there is one), and `malloc`, the reads and
`rtlsdr_set_sample_rate` are called with these values.  `-s 3200000 -b 1000000`
gives block size 1000000 and rate 3200000; no options give device 0, rate
2048000, block size 262144. -/
theorem C2_block_size_in_range (pre post : List Opt) (b : Nat)
    (hlo : 512 ≤ b) (hhi : b ≤ 4194304)
    (hpost : ∀ o ∈ post, o.isB = false)
    (hok : ∀ o ∈ pre ++ post, o.handled = true) :
    (∃ c cfg, getoptLoop (pre ++ Opt.b b :: post) Config.initial = some c ∧
      configure (pre ++ Opt.b b :: post) = some cfg ∧
      cfg.out_block_size = b ∧ cfg.samp_rate = c.samp_rate ∧ cfg.dev_index = c.dev_index ∧
      (∀ (pre1 post1 : List Opt) (s : Nat), s < 4294967296 →
        pre ++ Opt.b b :: post = pre1 ++ Opt.s s :: post1 →
        (∀ o ∈ post1, o.isS = false) → cfg.samp_rate = s) ∧
      (∀ (env : Env) (fuel n : Nat),
        (Call.malloc n ∈ (main (pre ++ Opt.b b :: post) env fuel).calls → n = b) ∧
        (Call.rtlsdr_read_sync n ∈ (main (pre ++ Opt.b b :: post) env fuel).calls → n = b) ∧
        (Call.rtlsdr_set_sample_rate n ∈ (main (pre ++ Opt.b b :: post) env fuel).calls →
          n = cfg.samp_rate))) ∧
    configure [Opt.s 3200000, Opt.b 1000000] =
      some { dev_index := 0, samp_rate := 3200000, out_block_size := 1000000 } ∧
    configure [] = some { dev_index := 0, samp_rate := 2048000, out_block_size := 262144 } := by
  refine ⟨?_, by decide, by decide⟩
  have hall : ∀ o ∈ pre ++ Opt.b b :: post, o.handled = true := by
    intro o ho
    rcases List.mem_append.mp ho with h1 | h1
    · exact hok o (List.mem_append.mpr (Or.inl h1))
    · rcases List.mem_cons.mp h1 with h2 | h2
      · rw [h2]; rfl
      · exact hok o (List.mem_append.mpr (Or.inr h2))
  obtain ⟨cfg, hcfg⟩ := configure_handled _ hall
  obtain ⟨c, hc, hcc⟩ := configure_eq_some _ cfg hcfg
  have hraw := getoptLoop_last_b pre post b Config.initial c hpost hc
  rw [Nat.mod_eq_of_lt (by omega)] at hraw
  have hbs : cfg.out_block_size = b := by
    rw [hcc]
    simp only [hraw]
    exact checkBlockSize_in b hlo hhi
  refine ⟨c, cfg, hc, hcfg, hbs, by rw [hcc], by rw [hcc], ?_, ?_⟩
  · intro pre1 post1 s hs heq hpost1
    rw [heq] at hc
    have := getoptLoop_last_s pre1 post1 s Config.initial c hpost1 hc
    rw [Nat.mod_eq_of_lt hs] at this
    rw [hcc]
    exact this
  · intro env fuel n
    have hs := main_calls_sizes _ env fuel cfg hcfg n
    rw [hbs] at hs
    exact hs

/-- Witness for C2 at `-s 3200000 -b 1000000`. -/
theorem C2_block_size_in_range_witness :
    512 ≤ 1000000 ∧ 1000000 ≤ 4194304 ∧
    ∃ c cfg, getoptLoop ([Opt.s 3200000] ++ Opt.b 1000000 :: []) Config.initial = some c ∧
      configure ([Opt.s 3200000] ++ Opt.b 1000000 :: []) = some cfg ∧
      cfg.out_block_size = 1000000 ∧ cfg.samp_rate = c.samp_rate ∧
      cfg.dev_index = c.dev_index ∧
      (∀ (pre1 post1 : List Opt) (s : Nat), s < 4294967296 →
        [Opt.s 3200000] ++ Opt.b 1000000 :: [] = pre1 ++ Opt.s s :: post1 →
        (∀ o ∈ post1, o.isS = false) → cfg.samp_rate = s) ∧
      (∀ (env : Env) (fuel n : Nat),
        (Call.malloc n ∈ (main ([Opt.s 3200000] ++ Opt.b 1000000 :: []) env fuel).calls →
          n = 1000000) ∧
        (Call.rtlsdr_read_sync n ∈
          (main ([Opt.s 3200000] ++ Opt.b 1000000 :: []) env fuel).calls → n = 1000000) ∧
        (Call.rtlsdr_set_sample_rate n ∈
          (main ([Opt.s 3200000] ++ Opt.b 1000000 :: []) env fuel).calls →
          n = cfg.samp_rate)) :=
  ⟨by decide, by decide,
   (C2_block_size_in_range [Opt.s 3200000] [] 1000000 (by decide) (by decide) (by simp)
     (by simp [Opt.handled])).1⟩

/-- C3: when the device count is zero, whatever the options, the run ends with
exit status 1, writes nothing to standard output, and makes no open,
set-sample-rate, reset, read or close call. -/
theorem C3_no_device (opts : List Opt) (env : Env) (fuel : Nat)
    (h0 : env.rtlsdr_get_device_count = 0) :
    (main opts env fuel).exit = some 1 ∧
    (main opts env fuel).stdout = [] ∧
    (∀ c ∈ (main opts env fuel).calls, c.usesDevice = false) := by
  cases hcfg : configure opts with
  | none =>
    rw [main_usage opts env fuel hcfg]
    simp
  | some cfg =>
    rw [main_no_device opts env fuel cfg hcfg h0]
    simp [Call.usesDevice]

/-- Witness for C3 on `envNoDevice` with `-b 100`. -/
theorem C3_no_device_witness :
    envNoDevice.rtlsdr_get_device_count = 0 ∧
    (main [Opt.b 100] envNoDevice 10).exit = some 1 ∧
    (main [Opt.b 100] envNoDevice 10).stdout = [] ∧
    (∀ c ∈ (main [Opt.b 100] envNoDevice 10).calls, c.usesDevice = false) :=
  ⟨rfl, C3_no_device [Opt.b 100] envNoDevice 10 rfl⟩

/-- C4: the exit status is 1, and no read is issued, in each startup failure: an
option `t`, `p`, `S` or one `getopt` does not know is given; or the device count
is zero; or the options are fine, there is a device, and
`rtlsdr_open` returns a negative code. -/
theorem C4_startup_failures (opts : List Opt) (env : Env) (fuel : Nat)
    (h : (∃ o ∈ opts, o = Opt.t ∨ o = Opt.p ∨ o = Opt.S ∨ o = Opt.unrecognized) ∨
      env.rtlsdr_get_device_count = 0 ∨
      (∃ cfg, configure opts = some cfg ∧ env.rtlsdr_get_device_count ≠ 0 ∧
        env.rtlsdr_open cfg.dev_index < 0)) :
    (main opts env fuel).exit = some 1 ∧ readCount (main opts env fuel).calls = 0 := by
  rcases h with ⟨o, ho, hbad⟩ | h0 | ⟨cfg, hcfg, h0, hopen⟩
  · have hn : configure opts = none := by
      apply configure_not_handled
      refine ⟨o, ho, ?_⟩
      rcases hbad with h1 | h1 | h1 | h1 <;> rw [h1] <;> rfl
    rw [main_usage opts env fuel hn]
    simp [readCount]
  · cases hcfg : configure opts with
    | none =>
      rw [main_usage opts env fuel hcfg]
      simp [readCount]
    | some cfg =>
      rw [main_no_device opts env fuel cfg hcfg h0]
      simp [readCount, Call.isRead]
  · rw [main_open_failed opts env fuel cfg hcfg h0 hopen]
    refine ⟨rfl, ?_⟩
    show readCount _ = 0
    unfold readCount
    rw [List.countP_eq_zero]
    intro c hc
    simp [listAndOpenCalls] at hc
    rcases hc with h1 | h1 | h1 | h1 | h1
    · subst h1; simp [Call.isRead]
    · subst h1; simp [Call.isRead]
    · obtain ⟨a, _, rfl⟩ := h1; simp [Call.isRead]
    · subst h1; simp [Call.isRead]
    · subst h1; simp [Call.isRead]

/-- Witness for C4: one run for each of the three failures. -/
theorem C4_startup_failures_witness :
    ((main [Opt.b 512, Opt.S] envSteady 10).exit = some 1 ∧
      readCount (main [Opt.b 512, Opt.S] envSteady 10).calls = 0) ∧
    ((main [] envNoDevice 10).exit = some 1 ∧
      readCount (main [] envNoDevice 10).calls = 0) ∧
    ((main [Opt.d 0] envOpenFails 10).exit = some 1 ∧
      readCount (main [Opt.d 0] envOpenFails 10).calls = 0) :=
  ⟨C4_startup_failures [Opt.b 512, Opt.S] envSteady 10
     (Or.inl ⟨Opt.S, by simp, Or.inr (Or.inr (Or.inl rfl))⟩),
   C4_startup_failures [] envNoDevice 10 (Or.inr (Or.inl rfl)),
   C4_startup_failures [Opt.d 0] envOpenFails 10
     (Or.inr (Or.inr ⟨{ dev_index := 0, samp_rate := 2048000, out_block_size := 262144 },
       by decide, by decide, by decide⟩))⟩

/-- C5, as stated, fails: on `envShort` the loop stops on a short read whose
call returned 0, and the exit status is 0, not a non-zero magnitude. -/
theorem C5_counterexample :
    (main [] envShort 5).phase = Phase.short_read ∧
    (main [] envShort 5).exit = some 0 ∧
    ¬ (∃ e : Int, (main [] envShort 5).exit = some e ∧ e ≠ 0) := by
  decide

/-- C5, amended: in every run whose loop has stopped, with `r` above the least
`int`, the value returned from `main` is `|r|`, where `r` is the return code of
the last read when a read was issued and that of `rtlsdr_reset_buffer`
otherwise.  After a failed read `r < 0` and the value is `-r`, not zero; after a
short read, and after cancellation following a read, `r ≥ 0` and the value is
`r` itself.  More fuel does not change the run. -/
theorem C5_exit_status (opts : List Opt) (env : Env) (fuel : Nat)
    (hstop : (main opts env fuel).phase = Phase.cancelled ∨
      (main opts env fuel).phase = Phase.read_failed ∨
      (main opts env fuel).phase = Phase.short_read)
    (hr : -2147483648 < (main opts env fuel).r) :
    ∃ cfg, configure opts = some cfg ∧
      (main opts env fuel).exit = some |(main opts env fuel).r| ∧
      (0 < readCount (main opts env fuel).calls →
        (main opts env fuel).r =
          (env.rtlsdr_read_sync (readCount (main opts env fuel).calls - 1)
            cfg.out_block_size).r) ∧
      (readCount (main opts env fuel).calls = 0 →
        (main opts env fuel).r = env.rtlsdr_reset_buffer ∧
        (main opts env fuel).phase = Phase.cancelled) ∧
      ((main opts env fuel).phase = Phase.read_failed →
        (main opts env fuel).r < 0 ∧
        (main opts env fuel).exit = some (-(main opts env fuel).r) ∧
        (main opts env fuel).exit ≠ some 0) ∧
      ((main opts env fuel).phase = Phase.short_read →
        0 ≤ (main opts env fuel).r ∧
        (main opts env fuel).exit = some (main opts env fuel).r) ∧
      ((main opts env fuel).phase = Phase.cancelled →
        0 < readCount (main opts env fuel).calls →
        0 ≤ (main opts env fuel).r ∧
        (main opts env fuel).exit = some (main opts env fuel).r) ∧
      (∀ m, main opts env (fuel + m) = main opts env fuel) := by
  obtain ⟨cfg, hcfg, h0, ho⟩ := main_in_loop opts env fuel (Or.inr hstop)
  obtain ⟨k, hk, hcount, hphase, hrr, _⟩ := main_loop_facts opts env fuel cfg hcfg h0 ho
  have hnl : (main opts env fuel).phase ≠ Phase.looping := by
    rcases hstop with h | h | h <;> rw [h] <;> decide
  have hexit : (main opts env fuel).exit = some (returnValue (main opts env fuel).r) := by
    rw [hrr, main_loop opts env fuel cfg hcfg h0 ho, afterLoop_exit]
    rw [hphase] at hnl
    rw [if_neg hnl]
  have habs := returnValue_abs _ hr
  refine ⟨cfg, hcfg, ?_, ?_, ?_, ?_, ?_, ?_, ?_⟩
  · rw [hexit, habs]
  · intro hpos
    rw [hcount] at hpos ⊢
    rw [hrr, hk.last_r hpos]
    simp
  · intro hz
    rw [hcount] at hz
    refine ⟨?_, ?_⟩
    · rw [hrr, hk.none_read hz]
      rfl
    · rcases hstop with h | h | h
      · exact h
      · rw [hphase] at h
        have := (hk.read_failed h).1
        omega
      · rw [hphase] at h
        have := (hk.short_read h).1
        omega
  · intro hp
    rw [hphase] at hp
    have hlt : (main opts env fuel).r < 0 := by rw [hrr]; exact (hk.read_failed hp).2
    refine ⟨hlt, ?_, ?_⟩
    · rw [hexit, habs, abs_of_neg hlt]
    · rw [hexit, habs, abs_of_neg hlt]
      intro hc
      have := Option.some.inj hc
      omega
  · intro hp
    rw [hphase] at hp
    have hge : 0 ≤ (main opts env fuel).r := by rw [hrr]; exact (hk.short_read hp).2.1
    exact ⟨hge, by rw [hexit, habs, abs_of_nonneg hge]⟩
  · intro hp hpos
    rw [hphase] at hp
    rw [hcount] at hpos
    have hge : 0 ≤ (main opts env fuel).r := by rw [hrr]; exact (hk.cancelled hp).2 hpos
    exact ⟨hge, by rw [hexit, habs, abs_of_nonneg hge]⟩
  · intro m
    exact main_stable opts env fuel m hnl

/-- Witness for C5 on `envFail`: the second read fails with -5 and the value
returned is 5. -/
theorem C5_exit_status_witness :
    (main [] envFail 5).phase = Phase.read_failed ∧
    -2147483648 < (main [] envFail 5).r ∧
    (main [] envFail 5).exit = some 5 ∧
    ∃ cfg, configure [] = some cfg ∧
      (main [] envFail 5).exit = some |(main [] envFail 5).r| ∧
      (0 < readCount (main [] envFail 5).calls →
        (main [] envFail 5).r =
          (envFail.rtlsdr_read_sync (readCount (main [] envFail 5).calls - 1)
            cfg.out_block_size).r) ∧
      (readCount (main [] envFail 5).calls = 0 →
        (main [] envFail 5).r = envFail.rtlsdr_reset_buffer ∧
        (main [] envFail 5).phase = Phase.cancelled) ∧
      ((main [] envFail 5).phase = Phase.read_failed →
        (main [] envFail 5).r < 0 ∧
        (main [] envFail 5).exit = some (-(main [] envFail 5).r) ∧
        (main [] envFail 5).exit ≠ some 0) ∧
      ((main [] envFail 5).phase = Phase.short_read →
        0 ≤ (main [] envFail 5).r ∧
        (main [] envFail 5).exit = some (main [] envFail 5).r) ∧
      ((main [] envFail 5).phase = Phase.cancelled →
        0 < readCount (main [] envFail 5).calls →
        0 ≤ (main [] envFail 5).r ∧
        (main [] envFail 5).exit = some (main [] envFail 5).r) ∧
      (∀ m, main [] envFail (5 + m) = main [] envFail 5) :=
  ⟨by decide, by decide, by decide,
   C5_exit_status [] envFail 5 (Or.inr (Or.inl (by decide))) (by decide)⟩

/-- C6, evaluated on `envShort` with no options: the third read stores 1, 2, 3, 4
at the start of the sample buffer and reports 4 bytes, the loop stops, and the
four bytes written are those found at the address of the variable `buffer`
(160, 66, 96, 85), not the first four bytes of the sample buffer. -/
theorem C6_output_is_not_the_buffer :
    (main [] envShort 5).phase = Phase.short_read ∧
    (main [] envShort 5).n_read = 4 ∧
    (List.range 4).map (main [] envShort 5).buffer = [1, 2, 3, 4] ∧
    (main [] envShort 5).stdout = [[160, 66, 96, 85]] ∧
    (main [] envShort 5).stdout ≠ [(List.range 4).map (main [] envShort 5).buffer] := by
  decide

/-- C7, as stated, fails: with no device the process ends with status 1 and has
written to standard output zero times, not once. -/
theorem C7_counterexample :
    (main [] envNoDevice 5).exit = some 1 ∧
    (main [] envNoDevice 5).stdout.length = 0 ∧
    (main [] envNoDevice 5).stdout.length ≠ 1 := by
  decide

/-- C7, amended: a run that has ended wrote to standard output exactly once when
its loop stopped (by cancellation, a failed read or a short read), and not at
all when it ended in a startup failure (usage, no device, failed open); these
are the only ways a run ends. -/
theorem C7_one_write_after_loop (opts : List Opt) (env : Env) (fuel : Nat)
    (hterm : (main opts env fuel).exit ≠ none) :
    (((main opts env fuel).phase = Phase.cancelled ∨
        (main opts env fuel).phase = Phase.read_failed ∨
        (main opts env fuel).phase = Phase.short_read) ∧
      (main opts env fuel).stdout = [fwritePayload env (main opts env fuel).n_read] ∧
      (main opts env fuel).stdout.length = 1) ∨
    (((main opts env fuel).phase = Phase.usage ∨
        (main opts env fuel).phase = Phase.no_device ∨
        (main opts env fuel).phase = Phase.open_failed) ∧
      (main opts env fuel).stdout = [] ∧
      (main opts env fuel).stdout.length = 0) := by
  cases hc : configure opts with
  | none =>
    right
    rw [main_usage opts env fuel hc]
    simp
  | some cfg =>
    by_cases h0 : env.rtlsdr_get_device_count = 0
    · right
      rw [main_no_device opts env fuel cfg hc h0]
      simp
    · by_cases ho : env.rtlsdr_open cfg.dev_index < 0
      · right
        rw [main_open_failed opts env fuel cfg hc h0 ho]
        simp
      · left
        have ho1 := not_lt.mp ho
        obtain ⟨k, hk, _, hphase, _, hn⟩ := main_loop_facts opts env fuel cfg hc h0 ho1
        have hnl : (readLoop env cfg.out_block_size fuel 0 (entryState env cfg)).1 ≠
            Phase.looping := by
          intro hl
          apply hterm
          rw [main_loop opts env fuel cfg hc h0 ho1, afterLoop_exit, if_pos hl]
        have hstd : (main opts env fuel).stdout =
            [fwritePayload env (main opts env fuel).n_read] := by
          rw [hn, main_loop opts env fuel cfg hc h0 ho1, afterLoop_stdout, if_neg hnl]
        refine ⟨?_, hstd, by rw [hstd]; rfl⟩
        rw [hphase]
        rcases hk.in_loop with h | h | h | h
        · exact absurd h hnl
        · exact Or.inl h
        · exact Or.inr (Or.inl h)
        · exact Or.inr (Or.inr h)

/-- Witness for C7 on `envShort`: the run has ended and wrote once. -/
theorem C7_one_write_after_loop_witness :
    (main [] envShort 5).exit ≠ none ∧
    (main [] envShort 5).stdout.length = 1 ∧
    ((((main [] envShort 5).phase = Phase.cancelled ∨
        (main [] envShort 5).phase = Phase.read_failed ∨
        (main [] envShort 5).phase = Phase.short_read) ∧
      (main [] envShort 5).stdout = [fwritePayload envShort (main [] envShort 5).n_read] ∧
      (main [] envShort 5).stdout.length = 1) ∨
    (((main [] envShort 5).phase = Phase.usage ∨
        (main [] envShort 5).phase = Phase.no_device ∨
        (main [] envShort 5).phase = Phase.open_failed) ∧
      (main [] envShort 5).stdout = [] ∧
      (main [] envShort 5).stdout.length = 0)) :=
  ⟨by decide, by decide, C7_one_write_after_loop [] envShort 5 (by decide)⟩

/-- C8: when a run is still looping after `k` iterations, the flag is clear at
the next loop test, and the read then issued returns a non-negative code and
reports `n` bytes with `0 ≤ n < B` (`B` the block size in force), every longer
run has stopped on that short read: its calls are those made so far, that one
read, then close and free (so `k + 1` reads in all, none after it), and its one
write to standard output carries `n` bytes, fewer than `B`. -/
theorem C8_short_read_stops (opts : List Opt) (env : Env) (cfg : Config) (k : Nat) (n : Int)
    (hcfg : configure opts = some cfg)
    (hreach : (main opts env k).phase = Phase.looping)
    (hx : env.do_exit k = false)
    (hr : 0 ≤ (env.rtlsdr_read_sync k cfg.out_block_size).r)
    (hn : (env.rtlsdr_read_sync k cfg.out_block_size).n_read = some n)
    (h0 : 0 ≤ n) (hlt : n < (cfg.out_block_size : Int)) :
    ∀ fuel, k < fuel →
      (main opts env fuel).phase = Phase.short_read ∧
      (main opts env fuel).calls =
        (main opts env k).calls ++
          [Call.rtlsdr_read_sync cfg.out_block_size, Call.rtlsdr_close, Call.free] ∧
      readCount (main opts env fuel).calls = k + 1 ∧
      (main opts env fuel).stdout = [fwritePayload env n] ∧
      ((fwritePayload env n).length : Int) = n ∧
      (fwritePayload env n).length < cfg.out_block_size := by
  intro fuel hfuel
  obtain ⟨cfg1, stk, hcfg1, _, _, _, hcalls, hcount, hgo⟩ := main_at_reach opts env k hreach
  have hcc : cfg1 = cfg := by
    rw [hcfg] at hcfg1
    exact (Option.some.inj hcfg1).symm
  subst hcc
  obtain ⟨m, rfl⟩ : ∃ m, fuel = k + (m + 1) := ⟨fuel - k - 1, by omega⟩
  have hrange := configure_range opts cfg1 hcfg
  have hn32 : toU32 n = n.toNat := toU32_of_nonneg n h0 (by omega)
  have hn64 : toSizeT n = n.toNat := toSizeT_of_nonneg n h0 (by omega)
  have hloop : readLoop env cfg1.out_block_size (m + 1) k stk =
      (Phase.short_read, readStep env cfg1.out_block_size k stk) := by
    rw [readLoop_succ]
    have hx1 : ¬ env.do_exit k = true := by rw [hx]; simp
    have hr1 : ¬ (readStep env cfg1.out_block_size k stk).r < 0 := by
      simp only [readStep]; exact not_lt.mpr hr
    have hs1 : toU32 (readStep env cfg1.out_block_size k stk).n_read < cfg1.out_block_size := by
      simp only [readStep, hn, Option.getD_some]
      rw [hn32]
      omega
    rw [if_neg hx1, if_neg hr1, if_pos hs1]
  rw [hgo (m + 1), hloop]
  have hfin : afterLoop env (Phase.short_read, readStep env cfg1.out_block_size k stk) =
      finish env Phase.short_read (readStep env cfg1.out_block_size k stk) := rfl
  rw [hfin]
  refine ⟨rfl, ?_, ?_, ?_, ?_, ?_⟩
  · simp [finish, readStep, hcalls]
  · simp only [finish, readStep]
    rw [readCount_append, readCount_append, hcount]
    simp [readCount, Call.isRead]
  · simp [finish, readStep, hn]
  · rw [fwritePayload_length, hn64]
    exact Int.toNat_of_nonneg h0
  · rw [fwritePayload_length, hn64]
    omega

/-- Witness for C8 on `envShort`, whose third read (index 2) reports 4 bytes of
262144. -/
theorem C8_short_read_stops_witness :
    (main [] envShort 2).phase = Phase.looping ∧
    envShort.do_exit 2 = false ∧
    (main [] envShort 3).phase = Phase.short_read ∧
    ∀ fuel, 2 < fuel →
      (main [] envShort fuel).phase = Phase.short_read ∧
      (main [] envShort fuel).calls =
        (main [] envShort 2).calls ++
          [Call.rtlsdr_read_sync 262144, Call.rtlsdr_close, Call.free] ∧
      readCount (main [] envShort fuel).calls = 2 + 1 ∧
      (main [] envShort fuel).stdout = [fwritePayload envShort 4] ∧
      ((fwritePayload envShort 4).length : Int) = 4 ∧
      (fwritePayload envShort 4).length < 262144 :=
  ⟨by decide, by decide, by decide,
   C8_short_read_stops [] envShort
     { dev_index := 0, samp_rate := 2048000, out_block_size := 262144 } 2 4
     (by decide) (by decide) (by decide) (by decide) (by decide) (by decide) (by decide)⟩

/-- C9: when a run is still looping after `k` iterations and the flag is set at
the next loop test, every longer run has stopped as cancelled with the calls
made so far followed by close and free only: `k` reads, the read of that
iteration not among them.  A run that has stopped is not changed by more
fuel. -/
theorem C9_cancel_stops_without_read (opts : List Opt) (env : Env) (k : Nat)
    (hreach : (main opts env k).phase = Phase.looping)
    (hx : env.do_exit k = true) :
    readCount (main opts env k).calls = k ∧
    (∀ fuel, k < fuel →
      (main opts env fuel).phase = Phase.cancelled ∧
      (main opts env fuel).calls =
        (main opts env k).calls ++ [Call.rtlsdr_close, Call.free] ∧
      readCount (main opts env fuel).calls = k) ∧
    (∀ fuel m, (main opts env fuel).phase ≠ Phase.looping →
      main opts env (fuel + m) = main opts env fuel) := by
  obtain ⟨cfg, stk, _, _, _, _, hcalls, hcount, hgo⟩ := main_at_reach opts env k hreach
  refine ⟨by rw [hcalls, hcount], ?_, fun fuel m h => main_stable opts env fuel m h⟩
  intro fuel hfuel
  obtain ⟨m, rfl⟩ : ∃ m, fuel = k + (m + 1) := ⟨fuel - k - 1, by omega⟩
  have hloop : readLoop env cfg.out_block_size (m + 1) k stk = (Phase.cancelled, stk) := by
    rw [readLoop_succ, if_pos hx]
  rw [hgo (m + 1), hloop]
  have hfin : afterLoop env (Phase.cancelled, stk) = finish env Phase.cancelled stk := rfl
  rw [hfin]
  refine ⟨rfl, ?_, ?_⟩
  · simp [finish, hcalls]
  · simp only [finish]
    rw [readCount_append, hcount]
    simp [readCount, Call.isRead]

/-- Witness for C9 on `envCancel` with `-b 512`: the flag is set at the third loop
test (index 2), after two reads. -/
theorem C9_cancel_stops_without_read_witness :
    (main [Opt.b 512] envCancel 2).phase = Phase.looping ∧
    envCancel.do_exit 2 = true ∧
    readCount (main [Opt.b 512] envCancel 2).calls = 2 ∧
    (∀ fuel, 2 < fuel →
      (main [Opt.b 512] envCancel fuel).phase = Phase.cancelled ∧
      (main [Opt.b 512] envCancel fuel).calls =
        (main [Opt.b 512] envCancel 2).calls ++ [Call.rtlsdr_close, Call.free] ∧
      readCount (main [Opt.b 512] envCancel fuel).calls = 2) ∧
    (∀ fuel m, (main [Opt.b 512] envCancel fuel).phase ≠ Phase.looping →
      main [Opt.b 512] envCancel (fuel + m) = main [Opt.b 512] envCancel fuel) :=
  ⟨by decide, by decide,
   C9_cancel_stops_without_read [Opt.b 512] envCancel 2 (by decide) (by decide)⟩

/-- C10: when the options are fine, there is a device and `rtlsdr_open` returns a
non-negative code, then whatever `rtlsdr_set_sample_rate` and
`rtlsdr_reset_buffer` return, the run reaches the loop, having called both just
before it; while it loops the device is not closed, and once the loop has
stopped the calls are the startup calls, the reads, then one
`rtlsdr_close` and `free`: the device is closed exactly once, after every
read. -/
theorem C10_warnings_are_not_fatal (opts : List Opt) (env : Env) (cfg : Config)
    (hcfg : configure opts = some cfg)
    (h0 : env.rtlsdr_get_device_count ≠ 0)
    (ho : 0 ≤ env.rtlsdr_open cfg.dev_index) :
    (main opts env 0).phase = Phase.looping ∧
    (main opts env 0).calls =
      [Call.malloc cfg.out_block_size, Call.rtlsdr_get_device_count]
        ++ listAndOpenCalls env.rtlsdr_get_device_count cfg.dev_index
        ++ [Call.rtlsdr_set_sample_rate cfg.samp_rate, Call.rtlsdr_reset_buffer] ∧
    (∀ fuel, (main opts env fuel).phase = Phase.looping →
      List.count Call.rtlsdr_close (main opts env fuel).calls = 0) ∧
    (∀ fuel, (main opts env fuel).phase ≠ Phase.looping →
      ((main opts env fuel).phase = Phase.cancelled ∨
        (main opts env fuel).phase = Phase.read_failed ∨
        (main opts env fuel).phase = Phase.short_read) ∧
      List.count Call.rtlsdr_close (main opts env fuel).calls = 1 ∧
      ∃ j, (main opts env fuel).calls =
        (main opts env 0).calls
          ++ List.replicate j (Call.rtlsdr_read_sync cfg.out_block_size)
          ++ [Call.rtlsdr_close, Call.free]) := by
  have hcalls0 : (main opts env 0).calls = startupCalls env cfg := by
    rw [main_loop opts env 0 cfg hcfg h0 ho]
    rfl
  refine ⟨?_, ?_, ?_, ?_⟩
  · rw [main_loop opts env 0 cfg hcfg h0 ho]
    rfl
  · rw [hcalls0]
    rfl
  · intro fuel hl
    obtain ⟨j, _, hj⟩ := main_loop_calls opts env fuel cfg hcfg h0 ho
    rw [hj, if_pos hl, List.count_append, List.count_append, count_close_startupCalls,
      count_close_replicate]
    simp
  · intro fuel hnl
    obtain ⟨j, hfacts, hj⟩ := main_loop_calls opts env fuel cfg hcfg h0 ho
    rw [if_neg hnl] at hj
    have hphase : (main opts env fuel).phase =
        (readLoop env cfg.out_block_size fuel 0 (entryState env cfg)).1 := by
      rw [main_loop opts env fuel cfg hcfg h0 ho, afterLoop_phase]
    refine ⟨?_, ?_, j, ?_⟩
    · rcases hfacts.in_loop with h | h | h | h
      · exact absurd (hphase.trans h) hnl
      · exact Or.inl (hphase.trans h)
      · exact Or.inr (Or.inl (hphase.trans h))
      · exact Or.inr (Or.inr (hphase.trans h))
    · rw [hj, List.count_append, List.count_append, count_close_startupCalls,
        count_close_replicate]
      simp
    · rw [hj, hcalls0]

/-- Witness for C10 on `envWarnings`, where both calls return -1. -/
theorem C10_warnings_are_not_fatal_witness :
    envWarnings.rtlsdr_set_sample_rate 2048000 = -1 ∧
    envWarnings.rtlsdr_reset_buffer = -1 ∧
    (main [] envWarnings 0).phase = Phase.looping ∧
    List.count Call.rtlsdr_close (main [] envWarnings 3).calls = 1 ∧
    (main [] envWarnings 0).calls =
      [Call.malloc 262144, Call.rtlsdr_get_device_count]
        ++ listAndOpenCalls envWarnings.rtlsdr_get_device_count 0
        ++ [Call.rtlsdr_set_sample_rate 2048000, Call.rtlsdr_reset_buffer] :=
  ⟨by decide, by decide,
   (C10_warnings_are_not_fatal [] envWarnings
     { dev_index := 0, samp_rate := 2048000, out_block_size := 262144 }
     (by decide) (by decide) (by decide)).1,
   by decide,
   (C10_warnings_are_not_fatal [] envWarnings
     { dev_index := 0, samp_rate := 2048000, out_block_size := 262144 }
     (by decide) (by decide) (by decide)).2.1⟩

end RtlEntropy
